import Mathlib

/-!
Verification of the bidder server (LinkedIn campaign bid optimizer).

The repository contains two variants of the server: the single-tenant
`src/server.js` and a multi-user variant (the unnamed source file).  Both are
embedded below; definitions carrying the suffix `Single` come from
`src/server.js`, the suffix `Multi` marks the multi-user variant.  Where the
two variants agree a single definition is shared.

Numbers (budgets, bids, spend) are modelled as rationals; timestamps as
integers (milliseconds); calendar days as integer day numbers (JavaScript
`Date.setDate` arithmetic normalizes month boundaries, so subtracting k days
is day-number subtraction).  Outbound HTTP calls are modelled by environment
records holding each call's outcome.
-/

namespace Bidder

/-! ## JavaScript identifier values and campaign-id normalization -/

/-- A campaign identifier as it arrives from the platform: either a bare
JavaScript number or a string (possibly a URN such as
`urn:li:sponsoredCampaign:123`).  This is the resolved value of
`campaign.id ?? campaign.$URN ?? campaign` in the source. -/
inductive JsId where
  | num : Int → JsId
  | str : String → JsId
deriving DecidableEq

/-- JavaScript string coercion of an id value, as performed by `String(x)` or
by using the value as an object key. -/
def jsIdKey : JsId → String
  | .num n => Int.repr n
  | .str s => s

/-- Embedding of JavaScript `s.startsWith(p)`. -/
def jsStartsWith (s p : String) : Bool :=
  p.data.isPrefixOf s.data

/-- Embedding of JavaScript `s.toUpperCase()` (character-wise uppercase). -/
def jsToUpper (s : String) : String :=
  (s.data.map Char.toUpper).asString

/-- Accumulator-based splitting of a character list at ':' — the embedding of
JavaScript `s.split(':')`. -/
def jsSplitColonAux : List Char → List Char → List (List Char)
  | acc, [] => [acc.reverse]
  | acc, c :: cs =>
      if c = ':' then acc.reverse :: jsSplitColonAux [] cs
      else jsSplitColonAux (c :: acc) cs

/-- JavaScript `s.split(':')` on a string, as a list of character lists. -/
def jsSplitColon (s : String) : List (List Char) :=
  jsSplitColonAux [] s.data

/-- `getCampaignId` (src/server.js lines 370-375): a numeric id becomes its
decimal string; a string starting with `urn:` is split at ':' and the last
segment (`pop()`) is taken; any other string passes through. -/
def getCampaignId (raw : JsId) : String :=
  match raw with
  | .num n => Int.repr n
  | .str s =>
      if jsStartsWith s "urn:" then ((jsSplitColon s).getLastD []).asString
      else s

/-- The inner normalizer used by `runSpendAnalysisForAccount` and the
spend-analysis route (src/server.js lines 489-494): identical to
`getCampaignId` except that a numeric id is returned as the number itself
(no `String(...)` wrapper). -/
def getCampaignIdInner (raw : JsId) : JsId :=
  match raw with
  | .num n => .num n
  | .str s =>
      .str (if jsStartsWith s "urn:" then ((jsSplitColon s).getLastD []).asString
            else s)

/-! ## Campaign objects and platform call outcomes -/

/-- A campaign as returned by the platform.  `idRaw` is the resolved
`c.id ?? c.$URN ?? c` value; `status` is the campaign's own status field
(absent in some responses); `dailyBudget` and `unitCost` are the parsed
`amount` fields (`none` when the field is absent or empty, in which case the
source computes 0). -/
structure Campaign where
  idRaw : JsId
  status : Option String
  dailyBudget : Option ℚ
  unitCost : Option ℚ
deriving DecidableEq

/-- Outcome of one outbound HTTP call: success with a payload, or failure
carrying `some status` (an HTTP status code) or `none` (network error or
timeout, where `e.response?.status` is undefined). -/
inductive HttpResult (α : Type) where
  | ok : α → HttpResult α
  | err : Option Nat → HttpResult α
deriving DecidableEq

/-- The local active-status test `(c.status || '').toUpperCase() === 'ACTIVE'`
applied on fallback pages. -/
def activeByStatus (c : Campaign) : Bool :=
  jsToUpper (c.status.getD "") = "ACTIVE"

/-- `getCampaignGroupStatus`: the per-campaign group lookup returns the
uppercased `campaignGroupInfo.status`, or `null` when the lookup fails, the
info is missing, or the status is empty.  The environment function gives the
raw status (`none` = lookup error or missing info). -/
def getCampaignGroupStatus (gs : String → Option String) (id : String) :
    Option String :=
  match gs id with
  | none => none
  | some raw => if jsToUpper raw = "" then none else some (jsToUpper raw)

/-- `filterCampaignsByActiveGroup`: keep exactly the campaigns whose group
status lookup yields `ACTIVE`.  (The source batches lookups in tens and
collects an id set first; since the kept predicate depends only on the
campaign's id, this equals a direct filter.) -/
def filterCampaignsByActiveGroup (gs : String → Option String)
    (campaigns : List Campaign) : List Campaign :=
  campaigns.filter
    (fun c => getCampaignGroupStatus gs (getCampaignId c.idRaw) = some "ACTIVE")

/-- Candidate selection on an unfiltered page: locally filter to ACTIVE
status, or — if none are marked active — treat the whole page as candidates
(`active.length > 0 ? active : raw`). -/
def fallbackCandidates (raw : List Campaign) : List Campaign :=
  let active := raw.filter activeByStatus
  if active ≠ [] then active else raw

/-- Environment for `fetchAllActiveCampaigns`: whether a usable credential is
attached (multi-user variant checks this), the combined outcome of the
paginated primary search, the outcome of the unfiltered single-page fallback
request, and the group-status lookup table. -/
structure DiscoveryEnv where
  hasToken : Bool
  primary : HttpResult (List Campaign)
  fallback : HttpResult (List Campaign)
  groupStatus : String → Option String

/-- The fallback path of the multi-user `fetchAllActiveCampaigns`: one
unfiltered page, local status filter, group filter, and — when the group
filter empties a non-empty candidate list — the unfiltered candidates are
returned; a fallback request failure propagates. -/
def multiFallback (env : DiscoveryEnv) : Except (Option Nat) (List Campaign) :=
  match env.fallback with
  | .err st => .error st
  | .ok raw =>
      let candidates := fallbackCandidates raw
      let filtered := filterCampaignsByActiveGroup env.groupStatus candidates
      if filtered = [] ∧ candidates ≠ [] then .ok candidates else .ok filtered

/-- The multi-user `fetchAllActiveCampaigns`: missing credential throws a 401;
a successful non-empty primary search is group-filtered with the
empty-filter-returns-unfiltered policy; primary 401/403 propagates; primary
400 falls back; any other primary failure propagates; an empty primary result
also proceeds to the fallback page. -/
def fetchAllActiveCampaignsMulti (env : DiscoveryEnv) :
    Except (Option Nat) (List Campaign) :=
  if env.hasToken then
    match env.primary with
    | .ok all =>
        if all ≠ [] then
          let filtered := filterCampaignsByActiveGroup env.groupStatus all
          if filtered = [] then .ok all else .ok filtered
        else multiFallback env
    | .err st =>
        if st = some 401 ∨ st = some 403 then .error st
        else if st = some 400 then multiFallback env
        else .error st
  else .error (some 401)

/-- The fallback path of the single-tenant `fetchAllActiveCampaigns`
(src/server.js lines 459-464): same candidate selection, but the group-filter
result is returned as-is (no empty-filter fallback). -/
def singleFallback (env : DiscoveryEnv) : Except (Option Nat) (List Campaign) :=
  match env.fallback with
  | .err st => .error st
  | .ok raw =>
      .ok (filterCampaignsByActiveGroup env.groupStatus (fallbackCandidates raw))

/-- The single-tenant `fetchAllActiveCampaigns` (src/server.js lines 419-465):
no credential pre-check; a successful non-empty primary search is
group-filtered with no empty-filter fallback; primary 400 falls back; any
other primary failure propagates. -/
def fetchAllActiveCampaignsSingle (env : DiscoveryEnv) :
    Except (Option Nat) (List Campaign) :=
  match env.primary with
  | .ok all =>
      if all ≠ [] then .ok (filterCampaignsByActiveGroup env.groupStatus all)
      else singleFallback env
  | .err st =>
      if st = some 400 then singleFallback env else .error st

/-- Environment for `fetchActiveCampaignsForAccount`: the single search page
and the group-status table. -/
structure AccountFetchEnv where
  page : HttpResult (List Campaign)
  groupStatus : String → Option String

/-- `fetchActiveCampaignsForAccount` (src/server.js lines 468-484, identical
in the multi-user variant): one filtered page, candidate selection, group
filter returned as-is; any failure degrades to an empty list. -/
def fetchActiveCampaignsForAccount (env : AccountFetchEnv) : List Campaign :=
  match env.page with
  | .err _ => []
  | .ok raw =>
      filterCampaignsByActiveGroup env.groupStatus (fallbackCandidates raw)

/-! ## Recommendation engine -/

/-- `spendPercentage` as computed per campaign:
`dailyBudget > 0 ? dailySpend / dailyBudget * 100 : 0`. -/
def spendPercentage (dailyBudget dailySpend : ℚ) : ℚ :=
  if dailyBudget > 0 then dailySpend / dailyBudget * 100 else 0

/-- JavaScript `Math.round(q * 100) / 100` (round half toward positive
infinity at the second decimal). -/
def jsRound2 (q : ℚ) : ℚ :=
  ((⌊q * 100 + 1 / 2⌋ : ℤ) : ℚ) / 100

/-- A spend-analysis recommendation as built by the `/api/spend-analysis`
route (the display-only `reason` string is omitted). -/
structure Recommendation where
  action : String
  currentBid : ℚ
  recommendedBid : ℚ
  changePercent : ℚ
deriving DecidableEq

/-- The per-campaign recommendation rule of `/api/spend-analysis`
(src/server.js lines 804-833): increase when `spendPercentage < 90` and
`currentBid > 0`; decrease when `spendPercentage > 100` and `currentBid > 0`;
otherwise no recommendation.  The recommended bid is the adjusted bid rounded
to two decimals. -/
def recommendForCampaign (dailyBudget currentBid dailySpend adjPct : ℚ) :
    Option Recommendation :=
  let sp := spendPercentage dailyBudget dailySpend
  let pct := adjPct / 100
  if sp < 90 ∧ currentBid > 0 then
    some { action := "increase", currentBid := currentBid
           recommendedBid := jsRound2 (currentBid * (1 + pct))
           changePercent := adjPct }
  else if sp > 100 ∧ currentBid > 0 then
    some { action := "decrease", currentBid := currentBid
           recommendedBid := jsRound2 (currentBid * (1 - pct))
           changePercent := -adjPct }
  else none

/-- The reduced recommendation computed by `runSpendAnalysisForAccount`
(src/server.js lines 543-546): only the action is kept. -/
def optimizationAction (dailyBudget currentBid dailySpend : ℚ) : Option String :=
  let sp := spendPercentage dailyBudget dailySpend
  if sp < 90 ∧ currentBid > 0 then some "increase"
  else if sp > 100 ∧ currentBid > 0 then some "decrease"
  else none

/-- `runSpendAnalysisForAccount` (src/server.js lines 487-549): discover the
account's campaigns, normalize ids, attach the per-campaign average spend
(`none` in the analytics table means that campaign's analytics call failed and
its spend degrades to 0), and compute the per-campaign action.  Returns the
list of (normalized id key, action). -/
def runSpendAnalysisForAccount (fenv : AccountFetchEnv)
    (analytics : String → Option ℚ) : List (String × Option String) :=
  let campaigns := fetchActiveCampaignsForAccount fenv
  campaigns.map (fun c =>
    let id := jsIdKey (getCampaignIdInner c.idRaw)
    let dailyBudget := c.dailyBudget.getD 0
    let currentBid := c.unitCost.getD 0
    let dailySpend := (analytics id).getD 0
    (id, optimizationAction dailyBudget currentBid dailySpend))

/-- `getAccountOptimizationStatus` (src/server.js lines 551-560): a failed
spend analysis degrades to the empty list (`.catch(() => [])`); when a
non-empty exclusion list is supplied the analysis is filtered by id; the
result is whether any remaining campaign has a recommendation. -/
def getAccountOptimizationStatus
    (analysisRes : Except Unit (List (String × Option String)))
    (excludeIds : Option (List String)) : Bool :=
  let analysis : List (String × Option String) := match analysisRes with
    | .error _ => []
    | .ok a => a
  let filtered := match excludeIds with
    | some ids =>
        if ids ≠ [] then
          analysis.filter (fun (c : String × Option String) => !ids.contains c.1)
        else analysis
    | none => analysis
  filtered.any (fun (c : String × Option String) => c.2.isSome)

/-- The `hasOptimization` flag of the ad-accounts route (src/server.js line
144): any residual error from the status computation is converted to `false`
(`.catch(() => false)`). -/
def hasOptimizationFlag (res : Except Unit Bool) : Bool :=
  match res with
  | .error _ => false
  | .ok b => b

/-! ## Analytics date windows -/

/-- `DAYS_IN_RANGE` in both spend-analysis implementations. -/
def DAYS_IN_RANGE : ℤ := 3

/-- The analytics date range of the single-tenant spend analysis
(src/server.js lines 738-748): `startDate = today - (DAYS_IN_RANGE - 1)`,
`endDate = today`.  Days are integer day numbers. -/
def spendAnalysisDateRangeSingle (today : ℤ) : ℤ × ℤ :=
  (today - (DAYS_IN_RANGE - 1), today)

/-- The analytics date range of the multi-user spend analysis:
`endDate = today - 1`, `startDate = endDate - (DAYS_IN_RANGE - 1)`. -/
def spendAnalysisDateRangeMulti (today : ℤ) : ℤ × ℤ :=
  let endDate := today - 1
  (endDate - (DAYS_IN_RANGE - 1), endDate)

/-! ## Cooldown ledger (48h recently-optimized window) -/

/-- One row of the `recently_optimized` table, in the single-tenant shape
keyed by (ad account, campaign). -/
structure LedgerRow where
  adAccountId : String
  campaignId : String
  appliedAt : ℤ
  previousBid : Option ℚ
deriving DecidableEq

/-- The ledger table state. -/
abbrev Ledger := List LedgerRow

/-- `RECENTLY_OPTIMIZED_MS = 48 * 60 * 60 * 1000`. -/
def RECENTLY_OPTIMIZED_MS : ℤ := 48 * 60 * 60 * 1000

/-- Whether a row matches the (ad account, campaign) key. -/
def matchesKey (acct camp : String) (r : LedgerRow) : Bool :=
  r.adAccountId = acct ∧ r.campaignId = camp

/-- `recordRecentlyOptimizedInDb` (src/server.js lines 240-254) with Supabase
configured: a falsy account or campaign id is a no-op; otherwise delete every
row with the key, then insert a fresh row stamped `now` carrying the supplied
previous bid (`null` when absent). -/
def recordRecentlyOptimized (ledger : Ledger) (acct camp : String)
    (previousBid : Option ℚ) (now : ℤ) : Ledger :=
  if acct = "" ∨ camp = "" then ledger
  else (ledger.filter (fun r => !matchesKey acct camp r))
        ++ [⟨acct, camp, now, previousBid⟩]

/-- `removeRecentlyOptimizedFromDb` (src/server.js lines 256-264): delete
every row with the key, with no condition on the row's age. -/
def removeRecentlyOptimized (ledger : Ledger) (acct camp : String) : Ledger :=
  if acct = "" ∨ camp = "" then ledger
  else ledger.filter (fun r => !matchesKey acct camp r)

/-- Insertion into a list kept sorted by `appliedAt` descending. -/
def insertByAppliedAtDesc (r : LedgerRow) : Ledger → Ledger
  | [] => [r]
  | x :: xs =>
      if r.appliedAt ≤ x.appliedAt then x :: insertByAppliedAtDesc r xs
      else r :: x :: xs

/-- Sort rows newest-first, the `order('applied_at', ascending: false)` of the
read query. -/
def sortByAppliedAtDesc (l : Ledger) : Ledger :=
  l.foldr insertByAppliedAtDesc []

/-- `getRecentlyOptimizedFromDb` (src/server.js lines 220-238): a falsy
account id yields the empty list; otherwise the rows of that account whose
`applied_at` is at least `now - 48h`, newest first. -/
def listRecentlyOptimized (ledger : Ledger) (acct : String) (now : ℤ) : Ledger :=
  if acct = "" then []
  else sortByAppliedAtDesc (ledger.filter
    (fun r => r.adAccountId = acct ∧ now - RECENTLY_OPTIMIZED_MS ≤ r.appliedAt))

/-- Whether a campaign is inside the 48h window, as the callers derive it from
the listed entries' campaign ids. -/
def isRecentlyOptimized (ledger : Ledger) (acct camp : String) (now : ℤ) : Bool :=
  (listRecentlyOptimized ledger acct now).any (fun r => r.campaignId = camp)

/-! ## Bid mutator -/

/-- The `previousBid` request field: absent/null, the empty string, or a
numeric value (a numeric string is modelled by its parsed value, which is what
`Number(previousBid)` stores). -/
inductive PrevBid where
  | null : PrevBid
  | emptyStr : PrevBid
  | num : ℚ → PrevBid
deriving DecidableEq

/-- Error categories surfaced by the bid route. -/
inductive ApplyError where
  | validation : ApplyError
  | upstream : ApplyError
deriving DecidableEq

/-- Environment for the bid route: the outcome of the campaign (currency)
read and of the partial-update mutation. -/
structure ApplyBidEnv where
  campaignFetch : HttpResult Campaign
  mutation : HttpResult Unit

/-- The PATCH bid route (src/server.js lines 643-699).  Validates the account
id and `newBid > 0` (a zero bid is also rejected by the falsy check); reads
the campaign (its currency feeds the mutation payload); posts the partial
update; only after a successful mutation touches the ledger — `remove` when
`revert` is set, `record` when a non-empty `previousBid` was supplied.
Returns the response outcome together with the ledger state. -/
def applyBid (env : ApplyBidEnv) (ledger : Ledger) (acct : Option String)
    (camp : String) (newBid : ℚ) (prev : PrevBid) (revert : Bool) (now : ℤ) :
    Except ApplyError Unit × Ledger :=
  match acct with
  | none => (.error .validation, ledger)
  | some a =>
      if newBid ≤ 0 then (.error .validation, ledger)
      else
        match env.campaignFetch with
        | .err _ => (.error .upstream, ledger)
        | .ok _ =>
            match env.mutation with
            | .err _ => (.error .upstream, ledger)
            | .ok _ =>
                let ledger' :=
                  if revert then removeRecentlyOptimized ledger a camp
                  else
                    match prev with
                    | .num q => recordRecentlyOptimized ledger a camp (some q) now
                    | _ => ledger
                (.ok (), ledger')

/-! ## Selected-accounts settings and account listing -/

/-- The persisted selected-accounts state: never saved, or saved with a list
of ids. -/
inductive SettingsState where
  | absent : SettingsState
  | saved : List JsId → SettingsState

/-- `readSelectedAccountIds` (src/server.js lines 167-191): the saved list
when one exists, otherwise `null` (no filter). -/
def readSelectedAccountIds : SettingsState → Option (List JsId)
  | .absent => none
  | .saved ids => some ids

/-- An ad account as listed by the platform. -/
structure AdAccount where
  id : JsId
deriving DecidableEq

/-- The selection filter of `GET /api/ad-accounts` (src/server.js lines
130-135): when the read yields `null` no filter is applied; otherwise only
accounts whose stringified id is in the stringified saved set are kept. -/
def filterAdAccounts (st : SettingsState) (accounts : List AdAccount) :
    List AdAccount :=
  match readSelectedAccountIds st with
  | none => accounts
  | some ids =>
      let keys := ids.map jsIdKey
      accounts.filter (fun a => keys.contains (jsIdKey a.id))

/-! ## Helper lemmas -/

theorem jsSplitColonAux_ne_nil (acc l : List Char) : jsSplitColonAux acc l ≠ [] := by
  induction l generalizing acc with
  | nil => simp [jsSplitColonAux]
  | cons c cs ih =>
      simp only [jsSplitColonAux]
      split
      · simp
      · exact ih _

theorem getLastD_congr {α : Type} (l : List α) (d₁ d₂ : α) (h : l ≠ []) :
    l.getLastD d₁ = l.getLastD d₂ := by
  cases l with
  | nil => exact absurd rfl h
  | cons a as => rw [List.getLastD_cons, List.getLastD_cons]

theorem jsSplitColonAux_no_colon (acc l : List Char) (h : ∀ c ∈ l, c ≠ ':') :
    jsSplitColonAux acc l = [acc.reverse ++ l] := by
  induction l generalizing acc with
  | nil => simp [jsSplitColonAux]
  | cons c cs ih =>
      have hc : c ≠ ':' := h c (List.mem_cons_self c cs)
      simp only [jsSplitColonAux, if_neg hc]
      rw [ih (c :: acc) (fun x hx => h x (List.mem_cons_of_mem _ hx))]
      simp

theorem jsSplitColonAux_last (ys : List Char) (hys : ∀ c ∈ ys, c ≠ ':')
    (l : List Char) (acc : List Char) :
    (jsSplitColonAux acc (l ++ ':' :: ys)).getLastD [] = ys := by
  induction l generalizing acc with
  | nil =>
      rw [List.nil_append]
      simp only [jsSplitColonAux, if_pos rfl]
      rw [jsSplitColonAux_no_colon [] ys hys]
      simp [List.getLastD_cons]
  | cons c cs ih =>
      rw [List.cons_append]
      simp only [jsSplitColonAux]
      split
      · rw [List.getLastD_cons,
          getLastD_congr _ _ [] (jsSplitColonAux_ne_nil _ _)]
        exact ih []
      · exact ih _

theorem digitChar_eq_star (m : ℕ) (hm : 16 ≤ m) : Nat.digitChar m = '*' := by
  unfold Nat.digitChar
  repeat rw [if_neg (by omega)]

theorem digitChar_ne_colon (n : ℕ) : Nat.digitChar n ≠ ':' := by
  by_cases h : n < 16
  · interval_cases n <;> decide
  · rw [digitChar_eq_star n (by omega)]
    decide

theorem toDigitsCore_ne_colon (b : ℕ) (fuel : ℕ) :
    ∀ (n : ℕ) (acc : List Char), (∀ c ∈ acc, c ≠ ':') →
      ∀ c ∈ Nat.toDigitsCore b fuel n acc, c ≠ ':' := by
  induction fuel with
  | zero => intro n acc hacc; simpa [Nat.toDigitsCore] using hacc
  | succ fuel ih =>
      intro n acc hacc
      simp only [Nat.toDigitsCore]
      have hcons : ∀ c ∈ Nat.digitChar (n % b) :: acc, c ≠ ':' := by
        intro c hc
        rcases List.mem_cons.mp hc with h | h
        · subst h; exact digitChar_ne_colon _
        · exact hacc c h
      split
      · exact hcons
      · exact ih _ _ hcons

theorem natRepr_ne_colon (n : ℕ) : ∀ c ∈ (Nat.repr n).data, c ≠ ':' := by
  intro c hc
  have h : (Nat.repr n).data = Nat.toDigitsCore 10 (n + 1) n [] := rfl
  rw [h] at hc
  exact toDigitsCore_ne_colon 10 (n + 1) n [] (by simp) c hc

theorem intRepr_ne_colon (n : ℤ) : ∀ c ∈ (Int.repr n).data, c ≠ ':' := by
  cases n with
  | ofNat m => exact natRepr_ne_colon m
  | negSucc m =>
      intro c hc
      have h : (Int.repr (Int.negSucc m)).data = '-' :: (Nat.repr (m + 1)).data := rfl
      rw [h] at hc
      rcases List.mem_cons.mp hc with h | h
      · subst h; decide
      · exact natRepr_ne_colon (m + 1) c h

theorem filter_recordRecentlyOptimized (ledger : Ledger) (acct camp : String)
    (q : Option ℚ) (t : ℤ) (ha : acct ≠ "") (hc : camp ≠ "") :
    (recordRecentlyOptimized ledger acct camp q t).filter (matchesKey acct camp)
      = [⟨acct, camp, t, q⟩] := by
  rw [recordRecentlyOptimized, if_neg (by simp [ha, hc])]
  rw [List.filter_append, List.filter_filter]
  have h1 : List.filter
      (fun a => matchesKey acct camp a && !matchesKey acct camp a) ledger = [] := by
    apply List.filter_eq_nil_iff.mpr
    intro a _
    cases matchesKey acct camp a <;> decide
  have h2 : List.filter (matchesKey acct camp) [⟨acct, camp, t, q⟩]
      = [⟨acct, camp, t, q⟩] := by
    simp [List.filter, matchesKey]
  rw [h1, h2, List.nil_append]

theorem mem_insertByAppliedAtDesc {r' r : LedgerRow} {l : Ledger} :
    r' ∈ insertByAppliedAtDesc r l ↔ r' = r ∨ r' ∈ l := by
  induction l with
  | nil => simp [insertByAppliedAtDesc]
  | cons x xs ih =>
      simp only [insertByAppliedAtDesc]
      split
      · simp only [List.mem_cons, ih]
        tauto
      · simp only [List.mem_cons]

theorem mem_sortByAppliedAtDesc {r : LedgerRow} {l : Ledger} :
    r ∈ sortByAppliedAtDesc l ↔ r ∈ l := by
  induction l with
  | nil => simp [sortByAppliedAtDesc]
  | cons x xs ih =>
      show r ∈ insertByAppliedAtDesc x (sortByAppliedAtDesc xs) ↔ _
      rw [mem_insertByAppliedAtDesc]
      simp [ih, eq_comm]

/-! ## Claim theorems -/

/-- Claim C1, counterexample to the claim as stated: with `dailyBudget = 0`,
`currentBid = 1`, `dailySpend = 0` and adjustment percent 2, the claim
requires no recommendation (`dailyBudget ≤ 0` is listed among the
no-recommendation cases), but the code computes `spendPct = 0 < 90` and
returns an increase recommendation to 1.02. -/
theorem recommendation_zero_budget_counterexample :
    recommendForCampaign 0 1 0 2 = some ⟨"increase", 1, 51 / 50, 2⟩ ∧
    recommendForCampaign 0 1 0 2 ≠ none := by
  have h : recommendForCampaign 0 1 0 2 = some ⟨"increase", 1, 51 / 50, 2⟩ := by
    norm_num [recommendForCampaign, spendPercentage, jsRound2]
  exact ⟨h, by rw [h]; simp⟩

/-- Claim C1 (amended): with `spendPct` defined as
`dailySpend/dailyBudget*100` when `dailyBudget > 0` and 0 otherwise: if
`currentBid > 0` and `spendPct < 90` the result is an increase recommendation
with `recommendedBid = round(currentBid*(1+p/100), 2)` — this includes the
`dailyBudget ≤ 0` case, where `spendPct = 0`; if `currentBid > 0` and
`spendPct > 100` it is a decrease recommendation with the symmetric formula;
the recommendation is none exactly when `currentBid ≤ 0` or
`90 ≤ spendPct ≤ 100`. -/
theorem recommendation_rule_amended (b bid sp p : ℚ) :
    (0 < bid → spendPercentage b sp < 90 →
      recommendForCampaign b bid sp p =
        some ⟨"increase", bid, jsRound2 (bid * (1 + p / 100)), p⟩) ∧
    (0 < bid → 100 < spendPercentage b sp →
      recommendForCampaign b bid sp p =
        some ⟨"decrease", bid, jsRound2 (bid * (1 - p / 100)), -p⟩) ∧
    (bid ≤ 0 ∨ (90 ≤ spendPercentage b sp ∧ spendPercentage b sp ≤ 100) →
      recommendForCampaign b bid sp p = none) := by
  refine ⟨fun hbid hsp => ?_, fun hbid hsp => ?_, fun h => ?_⟩
  · rw [recommendForCampaign, if_pos ⟨hsp, hbid⟩]
  · rw [recommendForCampaign, if_neg (fun hcon => absurd hcon.1 (by linarith)),
      if_pos ⟨hsp, hbid⟩]
  · rcases h with h | ⟨h1, h2⟩
    · rw [recommendForCampaign, if_neg (fun hcon => absurd hcon.2 (by linarith)),
        if_neg (fun hcon => absurd hcon.2 (by linarith))]
    · rw [recommendForCampaign, if_neg (fun hcon => absurd hcon.1 (by linarith)),
        if_neg (fun hcon => absurd hcon.1 (by linarith))]

/-- Witness for the amended C1 rule at the spec's worked examples:
budget 100, bid 2, spend 20, p = 5 gives an increase to 2.10; budget 50,
bid 1, spend 60, p = 10 gives a decrease to 0.90; budget 100, bid 2,
spend 95 (95% band) gives none. -/
theorem recommendation_rule_amended_witness :
    recommendForCampaign 100 2 20 5 = some ⟨"increase", 2, 21 / 10, 5⟩ ∧
    recommendForCampaign 50 1 60 10 = some ⟨"decrease", 1, 9 / 10, -10⟩ ∧
    recommendForCampaign 100 2 95 5 = none := by
  refine ⟨?_, ?_, ?_⟩
  · have h := (recommendation_rule_amended 100 2 20 5).1 (by norm_num)
      (by norm_num [spendPercentage])
    rw [h]
    norm_num [jsRound2]
  · have h := (recommendation_rule_amended 50 1 60 10).2.1 (by norm_num)
      (by norm_num [spendPercentage])
    rw [h]
    norm_num [jsRound2]
  · exact (recommendation_rule_amended 100 2 95 5).2.2
      (Or.inr (by norm_num [spendPercentage]))

/-- Claim C2, counterexample to the claim as stated: the single-tenant
spend analysis (src/server.js) computes the window [today − 2, today], not
[today − 3, today − 1]; in particular its end day is the current day. -/
theorem analytics_window_counterexample :
    spendAnalysisDateRangeSingle 738000 = (737998, 738000) ∧
    spendAnalysisDateRangeSingle 738000 ≠ (738000 - 3, 738000 - 1) ∧
    (spendAnalysisDateRangeSingle 738000).2 = 738000 := by
  refine ⟨rfl, by decide, rfl⟩

/-- Claim C2 (amended): only the multi-user spend analysis computes the
trailing window [today − 3, today − 1], whose end day precedes the current
day; the single-tenant spend analysis (src/server.js) computes
[today − 2, today], which includes the current (possibly partial) day. -/
theorem analytics_window_amended (today : ℤ) :
    spendAnalysisDateRangeMulti today = (today - 3, today - 1) ∧
    (spendAnalysisDateRangeMulti today).2 < today ∧
    spendAnalysisDateRangeSingle today = (today - 2, today) := by
  refine ⟨?_, ?_, ?_⟩ <;>
    simp [spendAnalysisDateRangeMulti, spendAnalysisDateRangeSingle,
      DAYS_IN_RANGE, Prod.ext_iff]
  all_goals omega

/-- Claim C8: the account listing distinguishes a never-saved selection from
a saved empty selection: with no saved selection no filter is applied and all
accounts are returned; with a saved empty list the filter applies and no
account is returned. -/
theorem selected_accounts_null_vs_empty (accounts : List AdAccount) :
    filterAdAccounts .absent accounts = accounts ∧
    filterAdAccounts (.saved []) accounts = [] := by
  constructor
  · rfl
  · simp [filterAdAccounts, readSelectedAccountIds]

/-- Claim C5: recording the same (account, campaign) key twice leaves exactly
one live ledger row for that key, and it carries the second call's previous
bid and applied-at timestamp — the delete-then-insert makes the later write
win.  (The identifiers are non-empty; empty identifiers make `record` a
guarded no-op.) -/
theorem record_twice_last_write_wins (ledger : Ledger) (acct camp : String)
    (q1 q2 : Option ℚ) (t1 t2 : ℤ) (ha : acct ≠ "") (hc : camp ≠ "") :
    (recordRecentlyOptimized (recordRecentlyOptimized ledger acct camp q1 t1)
        acct camp q2 t2).filter (matchesKey acct camp) =
      [⟨acct, camp, t2, q2⟩] :=
  filter_recordRecentlyOptimized _ acct camp q2 t2 ha hc

/-- Witness for C5 at a concrete ledger: two records for ("a1", "c1") leave
exactly the second row. -/
theorem record_twice_last_write_wins_witness :
    (recordRecentlyOptimized (recordRecentlyOptimized [] "a1" "c1" (some 2) 10)
        "a1" "c1" (some 3) 20).filter (matchesKey "a1" "c1")
      = [⟨"a1", "c1", 20, some 3⟩] :=
  record_twice_last_write_wins [] "a1" "c1" (some 2) (some 3) 10 20
    (by decide) (by decide)

theorem mem_listRecentlyOptimized_mem (ledger : Ledger) (acct : String)
    (now : ℤ) : ∀ x ∈ listRecentlyOptimized ledger acct now, x ∈ ledger := by
  intro x hx
  by_cases hacct : acct = ""
  · rw [listRecentlyOptimized, if_pos hacct] at hx
    exact absurd hx (List.not_mem_nil x)
  · rw [listRecentlyOptimized, if_neg hacct] at hx
    rw [mem_sortByAppliedAtDesc] at hx
    exact (List.mem_filter.mp hx).1

theorem not_mem_listRecentlyOptimized (ledger : Ledger) (r : LedgerRow)
    (acct : String) (now : ℤ)
    (hold : r.appliedAt < now - RECENTLY_OPTIMIZED_MS) :
    r ∉ listRecentlyOptimized ledger acct now := by
  intro hmem'
  by_cases hacct : acct = ""
  · rw [listRecentlyOptimized, if_pos hacct] at hmem'
    exact absurd hmem' (List.not_mem_nil r)
  · rw [listRecentlyOptimized, if_neg hacct] at hmem'
    rw [mem_sortByAppliedAtDesc] at hmem'
    have hcond := (List.mem_filter.mp hmem').2
    simp only [decide_eq_true_eq] at hcond
    exact absurd hcond.2 (by omega)

/-- Claim C6: a ledger row whose applied-at lies more than 48 hours before
`now` is excluded from the recently-optimized listing (and its campaign does
not test as recently optimized), yet `remove` still deletes it regardless of
its age. -/
theorem cooldown_expiry_read_vs_remove (ledger : Ledger) (r : LedgerRow)
    (acct : String) (now : ℤ) (_hmem : r ∈ ledger)
    (hold : r.appliedAt < now - RECENTLY_OPTIMIZED_MS) :
    r ∉ listRecentlyOptimized ledger acct now ∧
    isRecentlyOptimized [r] r.adAccountId r.campaignId now = false ∧
    (r.adAccountId ≠ "" → r.campaignId ≠ "" →
      r ∉ removeRecentlyOptimized ledger r.adAccountId r.campaignId) := by
  refine ⟨not_mem_listRecentlyOptimized ledger r acct now hold, ?_, ?_⟩
  · have hnil : listRecentlyOptimized [r] r.adAccountId now = [] := by
      cases hl : listRecentlyOptimized [r] r.adAccountId now with
      | nil => rfl
      | cons y ys =>
          have hy : y ∈ listRecentlyOptimized [r] r.adAccountId now := by
            rw [hl]
            exact List.mem_cons_self y ys
          have hy1 : y ∈ [r] := mem_listRecentlyOptimized_mem _ _ _ y hy
          have hy2 : y = r := by simpa using hy1
          exact absurd (hy2 ▸ hy)
            (not_mem_listRecentlyOptimized [r] r r.adAccountId now hold)
    rw [isRecentlyOptimized, hnil]
    rfl
  · intro ha hc hmem'
    rw [removeRecentlyOptimized, if_neg (by simp [ha, hc])] at hmem'
    have hcond := (List.mem_filter.mp hmem').2
    simp [matchesKey] at hcond

/-- Witness for C6: a row applied at time 0 with `now` 49 hours later
(176400000 ms) is not listed, not recent, and still removable. -/
theorem cooldown_expiry_read_vs_remove_witness :
    (⟨"a1", "c1", 0, none⟩ : LedgerRow) ∉
        listRecentlyOptimized [⟨"a1", "c1", 0, none⟩] "a1" 176400000 ∧
    isRecentlyOptimized [⟨"a1", "c1", 0, none⟩] "a1" "c1" 176400000 = false ∧
    (⟨"a1", "c1", 0, none⟩ : LedgerRow) ∉
        removeRecentlyOptimized [⟨"a1", "c1", 0, none⟩] "a1" "c1" := by
  have h := cooldown_expiry_read_vs_remove [⟨"a1", "c1", 0, none⟩]
      ⟨"a1", "c1", 0, none⟩ "a1" 176400000 (by decide) (by decide)
  exact ⟨h.1, h.2.1, h.2.2 (by decide) (by decide)⟩

/-- Claim C9: a bare numeric id `n` and a URN-style string whose last
colon-separated segment is the decimal form of `n` normalize to the identical
string key `String(n)`, both under `getCampaignId` and — at the
string-key level — under the inner normalizer of the spend analysis. -/
theorem campaignId_normalization (mid : String) (n : ℤ) :
    getCampaignId (.num n) = Int.repr n ∧
    getCampaignId (.str ("urn:" ++ mid ++ ":" ++ Int.repr n)) = Int.repr n ∧
    jsIdKey (getCampaignIdInner (.num n)) =
      jsIdKey (getCampaignIdInner (.str ("urn:" ++ mid ++ ":" ++ Int.repr n))) := by
  have hu : ("urn:" : String).data = ['u', 'r', 'n', ':'] := rfl
  have hcolon : (":" : String).data = [':'] := rfl
  have hdata : ("urn:" ++ mid ++ ":" ++ Int.repr n).data
      = (['u', 'r', 'n', ':'] ++ mid.data) ++ ':' :: (Int.repr n).data := by
    simp [String.data_append, hu, hcolon]
  have hstart : jsStartsWith ("urn:" ++ mid ++ ":" ++ Int.repr n) "urn:" = true := by
    rw [jsStartsWith, List.isPrefixOf_iff_prefix, hdata, hu, List.append_assoc]
    exact List.prefix_append _ _
  have hsplit : (jsSplitColon ("urn:" ++ mid ++ ":" ++ Int.repr n)).getLastD []
      = (Int.repr n).data := by
    rw [jsSplitColon, hdata]
    exact jsSplitColonAux_last _ (intRepr_ne_colon n) _ []
  refine ⟨rfl, ?_, ?_⟩
  · show (if jsStartsWith ("urn:" ++ mid ++ ":" ++ Int.repr n) "urn:" then
        ((jsSplitColon ("urn:" ++ mid ++ ":" ++ Int.repr n)).getLastD []).asString
      else "urn:" ++ mid ++ ":" ++ Int.repr n) = Int.repr n
    rw [if_pos hstart, hsplit]
    rfl
  · show Int.repr n = (if jsStartsWith ("urn:" ++ mid ++ ":" ++ Int.repr n) "urn:" then
        ((jsSplitColon ("urn:" ++ mid ++ ":" ++ Int.repr n)).getLastD []).asString
      else "urn:" ++ mid ++ ":" ++ Int.repr n)
    rw [if_pos hstart, hsplit]
    rfl

/-- Claim C3, counterexample to the claim as stated: with one ACTIVE
candidate whose group lookup fails, group filtering eliminates every
candidate, yet the single-tenant `fetchAllActiveCampaigns` and
`fetchActiveCampaignsForAccount` return the empty filtered result, not the
unfiltered candidate list. -/
theorem discovery_degenerate_counterexample :
    ([⟨.num 7, some "ACTIVE", none, none⟩] : List Campaign) ≠ [] ∧
    filterCampaignsByActiveGroup (fun _ => none)
      [⟨.num 7, some "ACTIVE", none, none⟩] = [] ∧
    fetchAllActiveCampaignsSingle
      ⟨true, .ok [⟨.num 7, some "ACTIVE", none, none⟩], .err none, fun _ => none⟩
      = .ok [] ∧
    fetchActiveCampaignsForAccount
      ⟨.ok [⟨.num 7, some "ACTIVE", none, none⟩], fun _ => none⟩ = [] ∧
    (Except.ok [] : Except (Option Nat) (List Campaign)) ≠
      .ok [⟨.num 7, some "ACTIVE", none, none⟩] := by
  refine ⟨by decide, rfl, rfl, rfl, ?_⟩
  intro hcon
  injection hcon with hlist
  exact absurd hlist (by decide)

/-- Claim C3 (amended): the return-unfiltered-on-empty-filter policy holds in
the multi-user `fetchAllActiveCampaigns` (on the primary path and on the
fallback path); the single-tenant `fetchAllActiveCampaigns` and
`fetchActiveCampaignsForAccount` return the empty filtered result when group
filtering eliminates every candidate. -/
theorem discovery_degenerate_policy_amended (env : DiscoveryEnv)
    (fenv : AccountFetchEnv) :
    (∀ all, env.hasToken = true → env.primary = .ok all → all ≠ [] →
      filterCampaignsByActiveGroup env.groupStatus all = [] →
      fetchAllActiveCampaignsMulti env = .ok all) ∧
    (∀ raw, env.fallback = .ok raw → fallbackCandidates raw ≠ [] →
      filterCampaignsByActiveGroup env.groupStatus (fallbackCandidates raw) = [] →
      multiFallback env = .ok (fallbackCandidates raw)) ∧
    (∀ all, env.primary = .ok all → all ≠ [] →
      filterCampaignsByActiveGroup env.groupStatus all = [] →
      fetchAllActiveCampaignsSingle env = .ok []) ∧
    (∀ raw, fenv.page = .ok raw →
      filterCampaignsByActiveGroup fenv.groupStatus (fallbackCandidates raw) = [] →
      fetchActiveCampaignsForAccount fenv = []) := by
  refine ⟨?_, ?_, ?_, ?_⟩
  · intro all htok hp hne hfil
    simp [fetchAllActiveCampaignsMulti, htok, hp, hne, hfil]
  · intro raw hf hne hfil
    simp [multiFallback, hf, hne, hfil]
  · intro all hp hne hfil
    simp [fetchAllActiveCampaignsSingle, hp, hne, hfil]
  · intro raw hp hfil
    simp [fetchActiveCampaignsForAccount, hp, hfil]

/-- Witness for the amended C3 policy on the multi-user variant: one ACTIVE
candidate whose group lookup fails is returned unfiltered, on the primary
path and on the fallback path. -/
theorem discovery_degenerate_policy_amended_witness :
    fetchAllActiveCampaignsMulti
      ⟨true, .ok [⟨.num 7, some "ACTIVE", none, none⟩], .err none, fun _ => none⟩
      = .ok [⟨.num 7, some "ACTIVE", none, none⟩] ∧
    multiFallback
      ⟨true, .err (some 400), .ok [⟨.num 7, some "ACTIVE", none, none⟩],
        fun _ => none⟩
      = .ok [⟨.num 7, some "ACTIVE", none, none⟩] := by
  constructor
  · exact (discovery_degenerate_policy_amended
        ⟨true, .ok [⟨.num 7, some "ACTIVE", none, none⟩], .err none, fun _ => none⟩
        ⟨.err none, fun _ => none⟩).1
      [⟨.num 7, some "ACTIVE", none, none⟩] rfl rfl (by decide) rfl
  · have h := (discovery_degenerate_policy_amended
        ⟨true, .err (some 400), .ok [⟨.num 7, some "ACTIVE", none, none⟩],
          fun _ => none⟩
        ⟨.err none, fun _ => none⟩).2.1
      [⟨.num 7, some "ACTIVE", none, none⟩] rfl (by decide) rfl
    rw [h]
    rfl

/-- Claim C4, counterexample to the claim as stated: a 500 failure of the
primary paginated search propagates to the caller; it does not trigger the
fallback path (which here would have succeeded with one campaign). -/
theorem discovery_5xx_counterexample :
    fetchAllActiveCampaignsMulti
      ⟨true, .err (some 500), .ok [⟨.num 1, some "ACTIVE", none, none⟩],
        fun _ => some "ACTIVE"⟩ = .error (some 500) ∧
    multiFallback
      ⟨true, .err (some 500), .ok [⟨.num 1, some "ACTIVE", none, none⟩],
        fun _ => some "ACTIVE"⟩ = .ok [⟨.num 1, some "ACTIVE", none, none⟩] ∧
    fetchAllActiveCampaignsSingle
      ⟨true, .err (some 500), .ok [⟨.num 1, some "ACTIVE", none, none⟩],
        fun _ => some "ACTIVE"⟩ = .error (some 500) ∧
    (Except.error (some 500) : Except (Option Nat) (List Campaign)) ≠
      .ok [⟨.num 1, some "ACTIVE", none, none⟩] := by
  refine ⟨rfl, rfl, rfl, ?_⟩
  intro hcon
  exact Except.noConfusion hcon

/-- Claim C4 (amended): a missing credential fails with 401 (multi-user
variant); when the primary paginated search fails, only an HTTP 400 rejection
triggers the unfiltered single-page fallback — any other failure, including
network errors and 5xx (and in particular 401/403), propagates to the caller;
a failure of the fallback request itself propagates. -/
theorem discovery_failure_semantics_amended (env : DiscoveryEnv) :
    (env.hasToken = false → fetchAllActiveCampaignsMulti env = .error (some 401)) ∧
    (∀ st, env.hasToken = true → env.primary = .err st →
      fetchAllActiveCampaignsMulti env =
        if st = some 400 then multiFallback env else .error st) ∧
    (∀ st, env.primary = .err st →
      fetchAllActiveCampaignsSingle env =
        if st = some 400 then singleFallback env else .error st) ∧
    (∀ st, env.fallback = .err st →
      multiFallback env = .error st ∧ singleFallback env = .error st) := by
  refine ⟨?_, ?_, ?_, ?_⟩
  · intro h
    simp [fetchAllActiveCampaignsMulti, h]
  · intro st htok hp
    have hbody : fetchAllActiveCampaignsMulti env =
        (if st = some 401 ∨ st = some 403 then .error st
         else if st = some 400 then multiFallback env else .error st) := by
      simp [fetchAllActiveCampaignsMulti, htok, hp]
    rw [hbody]
    by_cases h1 : st = some 401 ∨ st = some 403
    · have h400 : ¬ st = some 400 := by
        rcases h1 with h | h <;> subst h <;> simp
      rw [if_pos h1, if_neg h400]
    · rw [if_neg h1]
  · intro st hp
    simp only [fetchAllActiveCampaignsSingle, hp]
  · intro st hf
    constructor <;> simp [multiFallback, singleFallback, hf]

/-- Witness for the amended C4 semantics: a 502 primary failure propagates in
both variants, a missing credential yields 401, and a 503 fallback failure
propagates. -/
theorem discovery_failure_semantics_amended_witness :
    fetchAllActiveCampaignsMulti
      ⟨false, .ok [], .ok [], fun _ => none⟩ = .error (some 401) ∧
    fetchAllActiveCampaignsMulti
      ⟨true, .err (some 502), .err (some 503), fun _ => none⟩
      = .error (some 502) ∧
    fetchAllActiveCampaignsSingle
      ⟨true, .err (some 502), .err (some 503), fun _ => none⟩
      = .error (some 502) ∧
    multiFallback ⟨true, .err (some 400), .err (some 503), fun _ => none⟩
      = .error (some 503) := by
  refine ⟨?_, ?_, ?_, ?_⟩
  · exact (discovery_failure_semantics_amended
        ⟨false, .ok [], .ok [], fun _ => none⟩).1 rfl
  · have h := (discovery_failure_semantics_amended
        ⟨true, .err (some 502), .err (some 503), fun _ => none⟩).2.1
      (some 502) rfl rfl
    rw [if_neg (by decide)] at h
    exact h
  · have h := (discovery_failure_semantics_amended
        ⟨true, .err (some 502), .err (some 503), fun _ => none⟩).2.2.1
      (some 502) rfl
    rw [if_neg (by decide)] at h
    exact h
  · exact ((discovery_failure_semantics_amended
        ⟨true, .err (some 400), .err (some 503), fun _ => none⟩).2.2.2
      (some 503) rfl).1

/-- Claim C7: if the partial-update mutation fails the ledger is completely
unchanged; after a successful mutation the ledger is updated — `remove` when
`revert` is set, `record` with the supplied previous bid when a non-empty
`previousBid` is present, and untouched when `previousBid` is null or
empty. -/
theorem applyBid_ledger_semantics (env : ApplyBidEnv) (ledger : Ledger)
    (a camp : String) (newBid : ℚ) (prev : PrevBid) (revert : Bool) (now : ℤ) :
    (∀ st, env.mutation = .err st →
      (applyBid env ledger (some a) camp newBid prev revert now).2 = ledger) ∧
    (∀ c, env.campaignFetch = .ok c → env.mutation = .ok () → 0 < newBid →
      revert = true →
      (applyBid env ledger (some a) camp newBid prev revert now).2 =
        removeRecentlyOptimized ledger a camp) ∧
    (∀ c q, env.campaignFetch = .ok c → env.mutation = .ok () → 0 < newBid →
      revert = false → prev = .num q →
      (applyBid env ledger (some a) camp newBid prev revert now).2 =
        recordRecentlyOptimized ledger a camp (some q) now) ∧
    (∀ c, env.campaignFetch = .ok c → env.mutation = .ok () → 0 < newBid →
      revert = false → (prev = .null ∨ prev = .emptyStr) →
      (applyBid env ledger (some a) camp newBid prev revert now).2 = ledger) := by
  refine ⟨?_, ?_, ?_, ?_⟩
  · intro st hm
    by_cases hb : newBid ≤ 0
    · simp [applyBid, hb]
    · cases hcf : env.campaignFetch with
      | err s => simp [applyBid, hb, hcf]
      | ok c => simp [applyBid, hb, hcf, hm]
  · intro c hcf hm hb hrev
    subst hrev
    simp [applyBid, hcf, hm, not_le.mpr hb]
  · intro c q hcf hm hb hrev hprev
    subst hrev
    subst hprev
    simp [applyBid, hcf, hm, not_le.mpr hb]
  · intro c hcf hm hb hrev hprev
    subst hrev
    rcases hprev with h | h <;> subst h <;>
      simp [applyBid, hcf, hm, not_le.mpr hb]

/-- Witness for C7: with a failed mutation the ledger row survives; with a
successful mutation, revert removes, a numeric previous bid records, and an
empty previous bid leaves the ledger as it was. -/
theorem applyBid_ledger_semantics_witness :
    (applyBid ⟨.ok ⟨.num 1, none, none, none⟩, .err none⟩
        [⟨"a1", "c1", 0, some 2⟩] (some "a1") "c1" 1 (.num 2) false 5).2
      = [⟨"a1", "c1", 0, some 2⟩] ∧
    (applyBid ⟨.ok ⟨.num 1, none, none, none⟩, .ok ()⟩
        [⟨"a1", "c1", 0, some 2⟩] (some "a1") "c1" 1 .null true 5).2
      = removeRecentlyOptimized [⟨"a1", "c1", 0, some 2⟩] "a1" "c1" ∧
    (applyBid ⟨.ok ⟨.num 1, none, none, none⟩, .ok ()⟩
        [] (some "a1") "c1" 1 (.num 2) false 5).2
      = recordRecentlyOptimized [] "a1" "c1" (some 2) 5 ∧
    (applyBid ⟨.ok ⟨.num 1, none, none, none⟩, .ok ()⟩
        [] (some "a1") "c1" 1 .emptyStr false 5).2 = [] := by
  refine ⟨?_, ?_, ?_, ?_⟩
  · exact (applyBid_ledger_semantics _ _ _ _ _ _ _ _).1 none rfl
  · exact (applyBid_ledger_semantics _ _ _ _ _ _ _ _).2.1
      ⟨.num 1, none, none, none⟩ rfl rfl (by norm_num) rfl
  · exact (applyBid_ledger_semantics _ _ _ _ _ _ _ _).2.2.1
      ⟨.num 1, none, none, none⟩ 2 rfl rfl (by norm_num) rfl rfl
  · exact (applyBid_ledger_semantics _ _ _ _ _ _ _ _).2.2.2
      ⟨.num 1, none, none, none⟩ rfl rfl (by norm_num) rfl (Or.inr rfl)

/-- Claim C10: the account optimization summary is total and never surfaces
an error: a failed campaign discovery yields the empty campaign list, a
failed spend analysis yields the empty analysis (hence status `false`), a
residual error in the flag computation is converted to `false`, and — being a
total Bool-valued function — the result is always a boolean. -/
theorem account_optimization_status_total (gs : String → Option String)
    (an : String → Option ℚ) (excl : Option (List String)) (st : Option Nat)
    (e : Unit) :
    fetchActiveCampaignsForAccount ⟨.err st, gs⟩ = [] ∧
    getAccountOptimizationStatus (.error e) excl = false ∧
    hasOptimizationFlag (.error e) = false ∧
    getAccountOptimizationStatus
      (.ok (runSpendAnalysisForAccount ⟨.err st, gs⟩ an)) excl = false := by
  refine ⟨rfl, ?_, rfl, ?_⟩ <;>
    cases excl with
    | none => rfl
    | some ids =>
        by_cases h : ids = []
        · subst h
          rfl
        · simp [getAccountOptimizationStatus, runSpendAnalysisForAccount,
            fetchActiveCampaignsForAccount, h]

end Bidder
